import Mathlib

/-!
Shallow embedding of `web/file.go` from the intertube repository: the
presigned-upload workflow (upload start, batch upload start, upload finish),
the storage-token refresher and the content-disposition encoder, together
with theorems checking the natural-language specification against it.

Go strings are byte strings; we embed them as `List Nat` with every element
a byte value.  Handlers are embedded as pure functions from their inputs and
an environment of storage oracles to a result record that carries the HTTP
outcome together with every externally visible effect (records created,
presigned URLs issued, storage deletions, and so on); a Go `panic` is an
explicit outcome constructor.
-/

/-- Go byte strings, as lists of byte values. -/
abbrev GoStr := List Nat

/-- Byte values of an ASCII string literal (used for the fixed pieces of the
content-disposition header built by `encodeContentDisp`). -/
def ascii (s : String) : GoStr := s.data.map Char.toNat

/-- `maxFileSize` from `web/file.go`: `500 * 1000 * 1000`. -/
def maxFileSize : Int := 500 * 1000 * 1000

/-- `path.Ext`: scan the byte string from the end; stop at a `'/'` (47); on a
`'.'` (46) return the suffix from that dot.  `pathExtAux` walks the reversed
string carrying the suffix accumulated so far. -/
def pathExtAux : GoStr → GoStr → GoStr
  | [], _ => []
  | c :: rest, acc =>
    if c = 47 then []
    else if c = 46 then 46 :: acc
    else pathExtAux rest (c :: acc)

/-- `path.Ext(filename)` over byte strings. -/
def pathExt (s : GoStr) : GoStr := pathExtAux s.reverse []

/-- Alphanumeric byte test from Go `url.shouldEscape`. -/
def isAlphaNum (c : Nat) : Bool :=
  decide ((48 ≤ c ∧ c ≤ 57) ∨ (65 ≤ c ∧ c ≤ 90) ∨ (97 ≤ c ∧ c ≤ 122))

/-- Go `url.shouldEscape(c, encodeQueryComponent)`: everything is escaped
except alphanumerics and `- _ . ~` (45, 95, 46, 126). -/
def shouldEscape (c : Nat) : Bool :=
  !(isAlphaNum c || c == 45 || c == 95 || c == 46 || c == 126)

/-- Upper-case hex digit byte, Go's `upperhex` table indexed by `n < 16`. -/
def hexDigit (n : Nat) : Nat := if n < 10 then 48 + n else 55 + n

/-- One byte of Go `url.QueryEscape` output: kept verbatim when unescaped,
`' '` becomes `'+'` (43), anything else becomes `%XX` with upper-case hex. -/
def queryEscapeByte (c : Nat) : GoStr :=
  if shouldEscape c then
    if c == 32 then [43]
    else [37, hexDigit (c / 16), hexDigit (c % 16)]
  else [c]

/-- Go `url.QueryEscape` over byte strings. -/
def queryEscape : GoStr → GoStr
  | [] => []
  | c :: rest => queryEscapeByte c ++ queryEscape rest

/-- One byte of `strings.ReplaceAll(s, "+", "%20")`: a `'+'` (43) becomes
`"%20"` (37, 50, 48), every other byte is kept. -/
def replacePlusByte (c : Nat) : GoStr := if c = 43 then [37, 50, 48] else [c]

/-- `strings.ReplaceAll(s, "+", "%20")` over byte strings (the pattern is a
single byte, so it is a per-byte substitution). -/
def replacePlus : GoStr → GoStr
  | [] => []
  | c :: rest => replacePlusByte c ++ replacePlus rest

/-- `encodeContentDisp` from `web/file.go`:
`"attachment; filename=\x22file" + ext + "\x22; filename*=UTF-8''" + escaped`
where `ext = path.Ext(filename)` and `escaped` is `url.QueryEscape(filename)`
with every `'+'` replaced by `"%20"`.  The quote (34) and the two
apostrophes (39) are spelled as byte values. -/
def encodeContentDisp (filename : GoStr) : GoStr :=
  ascii "attachment; filename=" ++ [34] ++ ascii "file" ++ pathExt filename ++ [34]
    ++ ascii "; filename*=UTF-8" ++ [39, 39] ++ replacePlus (queryEscape filename)

/-- Value of a hex digit byte (both cases), `none` for a non-hex byte.
Part of the standard percent-decoder used to state the round-trip claim. -/
def hexVal (c : Nat) : Option Nat :=
  if 48 ≤ c ∧ c ≤ 57 then some (c - 48)
  else if 65 ≤ c ∧ c ≤ 70 then some (c - 55)
  else if 97 ≤ c ∧ c ≤ 102 then some (c - 87)
  else none

/-- Standard RFC percent-decoding of a byte string: `%XX` with two hex digits
becomes the byte `XX`; every other byte is passed through.  This is the
verifier against which the encoder's round-trip property is stated. -/
def percentDecode : GoStr → GoStr
  | [] => []
  | c :: h :: l :: rest =>
    if c = 37 then
      match hexVal h, hexVal l with
      | some hv, some lv => (16 * hv + lv) :: percentDecode rest
      | _, _ => c :: percentDecode (h :: l :: rest)
    else c :: percentDecode (h :: l :: rest)
  | c :: rest => c :: percentDecode rest

theorem replacePlus_append (a b : GoStr) :
    replacePlus (a ++ b) = replacePlus a ++ replacePlus b := by
  induction a with
  | nil => rfl
  | cons c t ih => simp [replacePlus, ih, List.append_assoc]

theorem percentDecode_cons_ne (c : Nat) (h : c ≠ 37) (s : GoStr) :
    percentDecode (c :: s) = c :: percentDecode s := by
  match s with
  | [] => rw [percentDecode.eq_def]
  | [d] => rw [percentDecode.eq_def]
  | d :: e :: t =>
    rw [percentDecode.eq_def]
    simp [h]

theorem hexVal_hexDigit : ∀ n < 16, hexVal (hexDigit n) = some n := by decide

theorem hexDigit_ne_43 : ∀ n < 16, hexDigit n ≠ 43 := by decide

theorem percentDecode_pct (h l : Nat) (hv lv : Nat) (s : GoStr)
    (hh : hexVal h = some hv) (hl : hexVal l = some lv) :
    percentDecode (37 :: h :: l :: s) = (16 * hv + lv) :: percentDecode s := by
  rw [percentDecode.eq_def]
  simp [hh, hl]

theorem shouldEscape_false_ne (c : Nat) (h : shouldEscape c = false) :
    c ≠ 43 ∧ c ≠ 37 := by
  constructor
  · intro hc; subst hc; simp [shouldEscape, isAlphaNum] at h
  · intro hc; subst hc; simp [shouldEscape, isAlphaNum] at h

theorem percentDecode_encByte (c : Nat) (hc : c < 256) (s : GoStr) :
    percentDecode (replacePlus (queryEscapeByte c) ++ s) = c :: percentDecode s := by
  by_cases hesc : shouldEscape c = true
  · by_cases h32 : c = 32
    · subst h32
      have q : replacePlus (queryEscapeByte 32) = [37, 50, 48] := by decide
      rw [q]
      show percentDecode (37 :: 50 :: 48 :: s) = 32 :: percentDecode s
      rw [percentDecode_pct 50 48 2 0 s (by decide) (by decide)]
    · have hdiv : c / 16 < 16 := by
        have h16 : c < 16 * 16 := by omega
        omega
      have hmod : c % 16 < 16 := Nat.mod_lt _ (by norm_num)
      have hne32 : (c == 32) = false := by simp [h32]
      simp only [queryEscapeByte, hesc, if_pos rfl, hne32, if_false, Bool.false_eq_true]
      have r37 : replacePlusByte 37 = [37] := by decide
      have rd1 : replacePlusByte (hexDigit (c / 16)) = [hexDigit (c / 16)] := by
        simp [replacePlusByte, hexDigit_ne_43 _ hdiv]
      have rd2 : replacePlusByte (hexDigit (c % 16)) = [hexDigit (c % 16)] := by
        simp [replacePlusByte, hexDigit_ne_43 _ hmod]
      simp only [replacePlus, r37, rd1, rd2]
      simp only [List.append_nil, List.cons_append, List.nil_append]
      rw [percentDecode_pct _ _ _ _ s (hexVal_hexDigit _ hdiv) (hexVal_hexDigit _ hmod)]
      congr 1
      omega
  · have hesc' : shouldEscape c = false := by
      cases hs : shouldEscape c
      · rfl
      · exact absurd hs hesc
    obtain ⟨h43, h37⟩ := shouldEscape_false_ne c hesc'
    simp only [queryEscapeByte, hesc', Bool.false_eq_true, if_false]
    simp only [replacePlus, replacePlusByte, if_neg h43, List.append_nil,
      List.cons_append, List.nil_append]
    exact percentDecode_cons_ne c h37 s

theorem percentDecode_roundtrip :
    ∀ s : GoStr, (∀ b ∈ s, b < 256) →
      percentDecode (replacePlus (queryEscape s)) = s := by
  intro s
  induction s with
  | nil =>
    intro _
    show percentDecode (replacePlus (queryEscape [])) = []
    rw [show replacePlus (queryEscape []) = [] from rfl, percentDecode.eq_def]
  | cons c t ih =>
    intro h
    have hc : c < 256 := h c (by simp)
    have ht : ∀ b ∈ t, b < 256 := fun b hb => h b (by simp [hb])
    show percentDecode (replacePlus (queryEscapeByte c ++ queryEscape t)) = c :: t
    rw [replacePlus_append, percentDecode_encByte c hc, ih ht]

/-!
Data model.  `tube.User` and `tube.File` live in the `tube` package, which is
not part of the sources here; the fields below are the ones `web/file.go`
reads and writes.
-/

/-- Modelled from the spec: the User record — identity, `usage` (bytes
currently stored), the computed quota (`CalcQuota()`, 0 = unlimited, kept as
a field since the computation is outside the sources), and the storage-backend
token with its expiry (times as integers). -/
structure User where
  id : Nat
  usage : Int
  quota : Int
  b2Token : GoStr
  b2Expire : Int
  deriving DecidableEq

/-- `u.CalcQuota()` — modelled from the spec as the stored computed limit. -/
def User.calcQuota (u : User) : Int := u.quota

/-- Modelled from the spec: the File record — identity, owning user, display
name, declared size and mime type, client local-modification time, `deleted`
flag, and a `finished` flag for the pending → finished transition. -/
structure FileRec where
  id : Nat
  userID : Nat
  name : GoStr
  size : Int
  ftype : GoStr
  localMod : Int
  deleted : Bool
  finished : Bool
  deriving DecidableEq

/-- Modelled from the spec: the storage key is derived deterministically from
identity and owner (`f.Path()` is defined in the `tube` package); we keep the
pair itself, which is deterministic and collision-free per (owner, id). -/
abbrev ObjPath := Nat × Nat

def FileRec.path (f : FileRec) : ObjPath := (f.userID, f.id)

/-- Modelled from the spec: `tube.NewFile(userID, name, size)` creates a
pending record with the declared (client-asserted) size. -/
def newFile (fid : Nat) (uid : Nat) (name : GoStr) (size : Int) : FileRec :=
  { id := fid, userID := uid, name := name, size := size, ftype := [],
    localMod := 0, deleted := false, finished := false }

/-- HTTP outcome of a handler run: normal completion, an explicit 4xx written
by the handler (`w.WriteHeader(400)` plus a message), or a Go `panic`
(surfaced by the framework as a server-class error). -/
inductive Outcome where
  | ok : Outcome
  | clientError : String → Outcome
  | panicked : String → Outcome
  deriving DecidableEq

/-- Storage oracles used by the upload-start handlers:
`storage.UploadsBucket.Exists` and `storage.UploadsBucket.PresignPut`
(external collaborators; presigning may fail, which the handler turns into a
panic).  The storage state does not change during a single request. -/
structure StartEnv where
  exObj : ObjPath → Bool
  presign : ObjPath → Int → GoStr → Except String GoStr

/-- Result of a batch upload-start run: the HTTP outcome, the File records
created (in order), the presigned PUT URLs issued (path and URL, in order),
and the per-file output entries `(id, contentDisposition, url)` accumulated
for the JSON response.  Record creation (`zf.Create`) is modelled as always
succeeding; a persistence failure would panic before any further effect. -/
structure StartResult where
  outcome : Outcome
  created : List FileRec
  presigned : List (ObjPath × GoStr)
  output : List (Nat × GoStr × GoStr)
  deriving DecidableEq

/-- The loop body of `uploadStart2` from `web/file.go`, over the remaining
input items; `i` indexes the id supply, `total` is `totalsize` so far, and
the three accumulators carry records created, presigned URLs issued, and the
response entries.  After the loop the quota check runs: reject with 400 if
`CalcQuota() != 0 && usage + totalsize > quota`, else respond 200. -/
def uploadStart2Loop (u : User) (env : StartEnv) (ids : Nat → Nat) :
    List (GoStr × GoStr × Int × Int) → Nat → Int → List FileRec →
      List (ObjPath × GoStr) → List (Nat × GoStr × GoStr) → StartResult
  | [], _, total, created, pres, out =>
    if u.calcQuota ≠ 0 ∧ u.usage + total > u.calcQuota then
      { outcome := .clientError "would exceed upload quota", created := created,
        presigned := pres, output := out }
    else
      { outcome := .ok, created := created, presigned := pres, output := out }
  | (name, ftype, size, localMod) :: rest, i, total, created, pres, out =>
    if size = 0 then
      { outcome := .panicked "missing file size", created := created,
        presigned := pres, output := out }
    else if size > maxFileSize then
      { outcome := .clientError "file too big", created := created,
        presigned := pres, output := out }
    else
      let zf := { (newFile (ids i) u.id name size) with ftype := ftype, localMod := localMod }
      let created2 := created ++ [zf]
      if env.exObj zf.path then
        { outcome := .panicked "already exists?!", created := created2,
          presigned := pres, output := out }
      else
        let disp := encodeContentDisp name
        match env.presign zf.path size disp with
        | .error e =>
          { outcome := .panicked e, created := created2, presigned := pres, output := out }
        | .ok url =>
          uploadStart2Loop u env ids rest (i + 1) (total + size) created2
            (pres ++ [(zf.path, url)]) (out ++ [(zf.id, disp, url)])

/-- `uploadStart2` from `web/file.go`: batch upload start.  Each input item
is `(name, type, size, lastmod)`; `ids` supplies the fresh record ids that
`tube.NewFile` would generate. -/
def uploadStart2 (u : User) (env : StartEnv) (ids : Nat → Nat)
    (input : List (GoStr × GoStr × Int × Int)) : StartResult :=
  uploadStart2Loop u env ids input 0 0 [] [] []

/-- `uploadStart` from `web/file.go`: single upload start.  `sizeForm` is the
parsed `size` form value (`none` when `strconv.ParseInt` fails, which the
handler turns into a panic), `lastmodForm` the parsed `lastmod` value (a
parse failure leaves `localMod` at 0 without panicking). -/
def uploadStart (u : User) (env : StartEnv) (fid : Nat) (name ftype : GoStr)
    (sizeForm : Option Int) (lastmodForm : Option Int) : StartResult :=
  match sizeForm with
  | none => { outcome := .panicked "strconv.ParseInt", created := [], presigned := [], output := [] }
  | some size =>
    if size = 0 then
      { outcome := .panicked "missing file size", created := [], presigned := [], output := [] }
    else if size > maxFileSize then
      { outcome := .clientError "file too big", created := [], presigned := [], output := [] }
    else if u.calcQuota ≠ 0 ∧ u.usage + size > u.calcQuota then
      { outcome := .clientError "upload quota exceeded", created := [], presigned := [], output := [] }
    else
      let zf := { (newFile fid u.id name size) with
                  ftype := ftype
                  localMod := lastmodForm.getD 0 }
      if env.exObj zf.path then
        { outcome := .panicked "already exists?!", created := [zf], presigned := [], output := [] }
      else
        let disp := encodeContentDisp name
        match env.presign zf.path size disp with
        | .error e =>
          { outcome := .panicked e, created := [zf], presigned := [], output := [] }
        | .ok url =>
          { outcome := .ok, created := [zf], presigned := [(zf.path, url)],
            output := [(zf.id, disp, url)] }

/-!
Upload finish.  `tube.GetFile`, `tube.File.Finish`, `u.UpdateLastMod` and
`createB2Token` / `u.SetB2Token` live outside these sources and are modelled
from the spec; `storage.UploadsBucket.Head`, `storage.FilesBucket.Delete` and
`handleUpload` are external collaborators passed in as oracles.
-/

/-- Result of `storage.UploadsBucket.Head`: observed content type and size. -/
structure HeadInfo where
  htype : GoStr
  size : Int
  deriving DecidableEq

/-- Oracles for `uploadFinish`: the storage HEAD call and the downstream
`handleUpload` post-processing collaborator (returning a track id). -/
structure FinishEnv where
  head : ObjPath → Except String HeadInfo
  handleUpload : ObjPath → Nat → String → Except String Nat

/-- Modelled from the spec: `tube.GetFile(ctx, id)` resolves a File record by
id from the record store, with an error when no such record exists. -/
def getFile (db : List FileRec) (id : Nat) : Except String FileRec :=
  match db.find? (fun f => f.id == id) with
  | some f => .ok f
  | none => .error "file not found"

/-- Modelled from the spec: `f.Finish(ctx, type, size)` transitions the
record to finished, overwriting the declared size and type with the observed
values (spec §4.3 Finish step 3). -/
def finishFile (f : FileRec) (t : GoStr) (size : Int) : FileRec :=
  { f with ftype := t, size := size, finished := true }

/-- Replace the record with `f2.id` in the store by `f2`. -/
def updateRec (db : List FileRec) (f2 : FileRec) : List FileRec :=
  db.map (fun g => if g.id == f2.id then f2 else g)

/-- Result of an `uploadFinish` run: `panicMsg` is set when the handler
panicked (effects up to that point are kept); `status` is the explicitly
written HTTP status (`w.WriteHeader`), with the implicit 200 recorded on a
normal completion; `files`/`user` are the record store and user after the
run; the remaining fields trace the storage and collaborator effects. -/
structure FinishResult where
  panicMsg : Option String
  status : Option Nat
  files : List FileRec
  user : User
  lookedUp : Bool
  headCalls : List ObjPath
  deletedFromFiles : List ObjPath
  deletedFromUploads : List ObjPath
  processed : Bool
  lastModUpdated : Bool
  body : Option Nat
  deriving DecidableEq

/-- Initial (no-effect) result for a finish run over store `db` and user `u`. -/
def FinishResult.init (db : List FileRec) (u : User) : FinishResult :=
  { panicMsg := none, status := none, files := db, user := u, lookedUp := false,
    headCalls := [], deletedFromFiles := [], deletedFromUploads := [],
    processed := false, lastModUpdated := false, body := none }

/-- `uploadFinish` from `web/file.go`.  In order: panic if no session user;
panic if the `bid` query parameter is empty (`r.URL.Query().Get` returns the
empty string when the parameter is absent); resolve the record (panic on a
lookup error); 403 and return if the record is deleted or owned by another
user; HEAD the upload object (panic on error); `f.Finish` with the observed
type/size — per the spec this also adds the observed size to the user's
usage; if the observed size exceeds `maxFileSize`, delete `f.Path()` from
`storage.FilesBucket` and write 400 — with no early return; run
`handleUpload` (panic on error); `u.UpdateLastMod`; encode the track (the
implicit status is 200 when none was written). -/
def uploadFinish (hasUser : Bool) (u : User) (env : FinishEnv)
    (db : List FileRec) (bid : String) (id : Nat) : FinishResult :=
  if ¬hasUser then
    { FinishResult.init db u with panicMsg := some "no account" }
  else if bid = "" then
    { FinishResult.init db u with panicMsg := some "no bid" }
  else
    match getFile db id with
    | .error e =>
      { FinishResult.init db u with lookedUp := true, panicMsg := some e }
    | .ok f =>
      if f.deleted || f.userID != u.id then
        { FinishResult.init db u with lookedUp := true, status := some 403 }
      else
        match env.head f.path with
        | .error e =>
          { FinishResult.init db u with
            lookedUp := true
            headCalls := [f.path]
            panicMsg := some e }
        | .ok hd =>
          let db2 := updateRec db (finishFile f hd.htype hd.size)
          let u2 := { u with usage := u.usage + hd.size }
          let overs := hd.size > maxFileSize
          let st : Option Nat := if overs then some 400 else none
          let delF : List ObjPath := if overs then [f.path] else []
          match env.handleUpload f.path u.id bid with
          | .error e =>
            { panicMsg := some e, status := st, files := db2, user := u2,
              lookedUp := true, headCalls := [f.path], deletedFromFiles := delF,
              deletedFromUploads := [], processed := true,
              lastModUpdated := false, body := none }
          | .ok track =>
            { panicMsg := none, status := some (st.getD 200), files := db2,
              user := u2, lookedUp := true, headCalls := [f.path],
              deletedFromFiles := delF, deletedFromUploads := [],
              processed := true, lastModUpdated := true, body := some track }

deriving instance DecidableEq for Except

/-- Result of a `refreshB2Token` run: the returned error value, the user
record afterwards, and whether the storage backend was contacted. -/
structure RefreshResult where
  result : Except String Unit
  user : User
  backendCalled : Bool
  deriving DecidableEq

/-- `refreshB2Token` from `web/file.go`: with `now' = time.Now() - fudge`,
return nil immediately when the stored token is non-empty and `now'` is
before the stored expiry; otherwise call `createB2Token` (the `backend`
argument: a new token and expiry, or an error to propagate) and persist both
fields via `u.SetB2Token` (modelled from the spec as writing both fields on
the user record; its own persistence failure is not modelled). -/
def refreshB2Token (u : User) (now fudge : Int)
    (backend : Except String (GoStr × Int)) : RefreshResult :=
  if u.b2Token ≠ [] ∧ now - fudge < u.b2Expire then
    { result := .ok (), user := u, backendCalled := false }
  else
    match backend with
    | .error e => { result := .error e, user := u, backendCalled := true }
    | .ok (token, expire) =>
      { result := .ok (),
        user := { u with b2Token := token, b2Expire := expire },
        backendCalled := true }

/-!
Claim theorems.
-/

/-- C1: the claim says a batch whose total declared size exceeds the
non-zero quota is rejected with zero File records created and zero presigned
PUT URLs issued.  In the code the quota check runs only after the loop that
creates a record and issues a presigned PUT for every item: with usage
900000, quota 1000000 and a single item of declared size 200000 the request
is rejected as over quota, yet one record was created and one presigned URL
was issued. -/
theorem uploadStart2_creates_before_quota_check :
    uploadStart2
      { id := 1, usage := 900000, quota := 1000000, b2Token := [], b2Expire := 0 }
      { exObj := fun _ => false, presign := fun _ _ _ => .ok [117] }
      (fun i => i + 1) [([], [], 200000, 0)] =
    { outcome := .clientError "would exceed upload quota",
      created := [{ id := 1, userID := 1, name := [], size := 200000, ftype := [],
                    localMod := 0, deleted := false, finished := false }],
      presigned := [((1, 1), [117])],
      output := [(1, encodeContentDisp [], [117])] } := by
  decide

/-- C3: the claim says a batch containing an item with declared size zero or
over the hard maximum is rejected with no File record created for any item,
including items preceding the violating one.  In the code each item is
created and presigned before the next item is validated: with a batch of a
valid 1000-byte item followed by a 600000000-byte item the request is
rejected with the size-limit error, yet the first item's record was created
and its presigned URL issued. -/
theorem uploadStart2_partial_creation_on_size_violation :
    uploadStart2
      { id := 1, usage := 0, quota := 0, b2Token := [], b2Expire := 0 }
      { exObj := fun _ => false, presign := fun _ _ _ => .ok [117] }
      (fun i => i + 1) [([], [], 1000, 0), ([], [], 600000000, 0)] =
    { outcome := .clientError "file too big",
      created := [{ id := 1, userID := 1, name := [], size := 1000, ftype := [],
                    localMod := 0, deleted := false, finished := false }],
      presigned := [((1, 1), [117])],
      output := [(1, encodeContentDisp [], [117])] } := by
  decide

/-- C5 counterexample: at declared size 0 the single upload-start handler
panics (`"missing file size"`), surfaced by the framework as a server-class
error — it does not produce the HTTP 400 client error the claim states
(contrast the size-over-maximum branch, which writes 400 itself). -/
theorem uploadStart_zero_size_panics_cx :
    let r := uploadStart
      { id := 1, usage := 0, quota := 0, b2Token := [], b2Expire := 0 }
      { exObj := fun _ => false, presign := fun _ _ _ => .ok [117] }
      1 [] [] (some 0) none
    r.outcome = .panicked "missing file size" ∧
      r.created = [] ∧ r.presigned = [] := by
  decide

/-- C5 (amended): for every single upload-start request whose declared size
is zero, the handler aborts with the `"missing file size"` panic (a
server-class error, not a 400), and no File record is created and no
presigned URL is issued. -/
theorem uploadStart_zero_size_no_side_effects (u : User) (env : StartEnv)
    (fid : Nat) (name ftype : GoStr) (lastmod : Option Int) :
    let r := uploadStart u env fid name ftype (some 0) lastmod
    r.outcome = .panicked "missing file size" ∧
      r.created = [] ∧ r.presigned = [] := by
  simp [uploadStart]

/-- C10: for every upload-finish call whose `bid` query parameter is absent
or empty (`r.URL.Query().Get` yields the empty string in both cases), the
handler aborts with a panic before the File record is resolved and before
any record, storage, or user state is read or mutated (when no session user
is present it aborts even earlier, also before any such access). -/
theorem uploadFinish_empty_bid_aborts_first (hasUser : Bool) (u : User)
    (env : FinishEnv) (db : List FileRec) (id : Nat) :
    let r := uploadFinish hasUser u env db "" id
    (r.panicMsg = some "no bid" ∨ r.panicMsg = some "no account") ∧
      r.lookedUp = false ∧ r.files = db ∧ r.user = u ∧ r.headCalls = [] ∧
      r.deletedFromFiles = [] ∧ r.deletedFromUploads = [] ∧
      r.processed = false ∧ r.lastModUpdated = false := by
  cases hasUser <;> simp [uploadFinish, FinishResult.init]

/-- C2: the claim says an upload-finish whose observed size exceeds the hard
maximum deletes the object from the upload storage path and rejects without
leaving the record finished, without downstream processing and without a
usage/last-modified update.  In the code `f.Finish` runs before the size
check, the delete targets `storage.FilesBucket` rather than the uploads
bucket, and the 400 branch has no `return`: at observed size 500000001 the
record is finished with the observed size, usage grows by 500000001, the
uploads bucket sees no delete, and downstream processing and the
last-modified update still run. -/
theorem uploadFinish_oversize_no_rollback :
    uploadFinish true
      { id := 1, usage := 0, quota := 0, b2Token := [], b2Expire := 0 }
      { head := fun _ => .ok { htype := [], size := 500000001 },
        handleUpload := fun _ _ _ => .ok 7 }
      [{ id := 5, userID := 1, name := [], size := 100, ftype := [],
         localMod := 0, deleted := false, finished := false }]
      "b" 5 =
    { panicMsg := none, status := some 400,
      files := [{ id := 5, userID := 1, name := [], size := 500000001,
                  ftype := [], localMod := 0, deleted := false,
                  finished := true }],
      user := { id := 1, usage := 500000001, quota := 0, b2Token := [],
                b2Expire := 0 },
      lookedUp := true, headCalls := [(1, 5)], deletedFromFiles := [(1, 5)],
      deletedFromUploads := [], processed := true, lastModUpdated := true,
      body := some 7 } := by
  decide

/-- C6 counterexample: an upload-finish for an id with no File record
panics on the lookup error (surfaced as a server-class error) — the handler
never writes the 404 the claim states (contrast `downloadTrack`, which
checks for the not-found error and responds 404). -/
theorem uploadFinish_missing_record_panics_cx :
    let r := uploadFinish true
      { id := 1, usage := 0, quota := 0, b2Token := [], b2Expire := 0 }
      { head := fun _ => .ok { htype := [], size := 1 },
        handleUpload := fun _ _ _ => .ok 7 }
      [] "b" 9
    r.panicMsg = some "file not found" ∧ r.status = none := by
  decide

/-- C6 (amended): on upload-finish, a missing File record makes the handler
panic with the lookup error (a server-class abort, not a 404 response); a
record that is marked deleted or owned by a different user gets a 403 with
no record, storage, or user state read or mutated beyond the lookup. -/
theorem uploadFinish_resolve_rejections (u : User) (env : FinishEnv)
    (db : List FileRec) (bid : String) (id : Nat) (hbid : bid ≠ "") :
    (∀ e, getFile db id = .error e →
      (uploadFinish true u env db bid id).panicMsg = some e ∧
      (uploadFinish true u env db bid id).status = none ∧
      (uploadFinish true u env db bid id).files = db ∧
      (uploadFinish true u env db bid id).user = u ∧
      (uploadFinish true u env db bid id).headCalls = []) ∧
    (∀ f, getFile db id = .ok f → (f.deleted = true ∨ f.userID ≠ u.id) →
      (uploadFinish true u env db bid id).status = some 403 ∧
      (uploadFinish true u env db bid id).panicMsg = none ∧
      (uploadFinish true u env db bid id).files = db ∧
      (uploadFinish true u env db bid id).user = u ∧
      (uploadFinish true u env db bid id).headCalls = [] ∧
      (uploadFinish true u env db bid id).deletedFromFiles = [] ∧
      (uploadFinish true u env db bid id).deletedFromUploads = [] ∧
      (uploadFinish true u env db bid id).processed = false ∧
      (uploadFinish true u env db bid id).lastModUpdated = false) := by
  constructor
  · intro e he
    simp [uploadFinish, hbid, he, FinishResult.init]
  · intro f hf hrej
    have hb : (f.deleted || f.userID != u.id) = true := by
      rcases hrej with h | h
      · simp [h]
      · simp [h]
    simp [uploadFinish, hbid, hf, hb, FinishResult.init]

/-- C6 witness: a record owned by user 2 finished by user 1 yields the 403
branch with no mutation. -/
theorem uploadFinish_resolve_rejections_witness :
    (uploadFinish true
      { id := 1, usage := 0, quota := 0, b2Token := [], b2Expire := 0 }
      { head := fun _ => .ok { htype := [], size := 1 },
        handleUpload := fun _ _ _ => .ok 7 }
      [{ id := 5, userID := 2, name := [], size := 100, ftype := [],
         localMod := 0, deleted := false, finished := false }]
      "b" 5).status = some 403 ∧
    (uploadFinish true
      { id := 1, usage := 0, quota := 0, b2Token := [], b2Expire := 0 }
      { head := fun _ => .ok { htype := [], size := 1 },
        handleUpload := fun _ _ _ => .ok 7 }
      [{ id := 5, userID := 2, name := [], size := 100, ftype := [],
         localMod := 0, deleted := false, finished := false }]
      "b" 5).user =
      { id := 1, usage := 0, quota := 0, b2Token := [], b2Expire := 0 } := by
  have h := (uploadFinish_resolve_rejections
    { id := 1, usage := 0, quota := 0, b2Token := [], b2Expire := 0 }
    { head := fun _ => .ok { htype := [], size := 1 },
      handleUpload := fun _ _ _ => .ok 7 }
    [{ id := 5, userID := 2, name := [], size := 100, ftype := [],
       localMod := 0, deleted := false, finished := false }]
    "b" 5 (by decide)).2
    { id := 5, userID := 2, name := [], size := 100, ftype := [],
      localMod := 0, deleted := false, finished := false }
    (by decide) (Or.inr (by decide))
  exact ⟨h.1, h.2.2.2.1⟩

/-- C4: for every successful upload-finish (record resolved, owned, not
deleted; HEAD succeeds; observed size within the hard maximum; downstream
processing succeeds), the File record's size and type end up equal to the
values the storage HEAD returned — not the client-declared ones — and the
user's usage increases by exactly the observed size. -/
theorem uploadFinish_success_uses_observed (u : User) (env : FinishEnv)
    (db : List FileRec) (bid : String) (id : Nat) (f : FileRec) (hd : HeadInfo)
    (tr : Nat) (hbid : bid ≠ "") (hf : getFile db id = .ok f)
    (hdel : f.deleted = false) (hown : f.userID = u.id)
    (hh : env.head f.path = .ok hd) (hsz : hd.size ≤ maxFileSize)
    (hp : env.handleUpload f.path u.id bid = .ok tr) :
    let r := uploadFinish true u env db bid id
    r.panicMsg = none ∧ r.status = some 200 ∧
      r.files = updateRec db { f with ftype := hd.htype, size := hd.size, finished := true } ∧
      r.user.usage = u.usage + hd.size ∧
      r.deletedFromFiles = [] ∧ r.deletedFromUploads = [] ∧
      r.processed = true ∧ r.lastModUpdated = true := by
  have hno : ¬(hd.size > maxFileSize) := not_lt.2 hsz
  simp [uploadFinish, hbid, hf, hdel, hown, hh, hp, hno, finishFile]

/-- C4 witness: a stored object whose HEAD reports size 0 finishes with the
record's size overwritten to 0 and a usage increment of 0 (usage 10 + 0). -/
theorem uploadFinish_success_uses_observed_witness :
    (uploadFinish true
      { id := 1, usage := 10, quota := 0, b2Token := [], b2Expire := 0 }
      { head := fun _ => .ok { htype := [109], size := 0 },
        handleUpload := fun _ _ _ => .ok 7 }
      [{ id := 5, userID := 1, name := [], size := 100, ftype := [],
         localMod := 0, deleted := false, finished := false }]
      "b" 5).user.usage = 10 + 0 ∧
    (uploadFinish true
      { id := 1, usage := 10, quota := 0, b2Token := [], b2Expire := 0 }
      { head := fun _ => .ok { htype := [109], size := 0 },
        handleUpload := fun _ _ _ => .ok 7 }
      [{ id := 5, userID := 1, name := [], size := 100, ftype := [],
         localMod := 0, deleted := false, finished := false }]
      "b" 5).files =
      updateRec
        [{ id := 5, userID := 1, name := [], size := 100, ftype := [],
           localMod := 0, deleted := false, finished := false }]
        { id := 5, userID := 1, name := [], size := 0, ftype := [109],
          localMod := 0, deleted := false, finished := true } := by
  have h := uploadFinish_success_uses_observed
    { id := 1, usage := 10, quota := 0, b2Token := [], b2Expire := 0 }
    { head := fun _ => .ok { htype := [109], size := 0 },
      handleUpload := fun _ _ _ => .ok 7 }
    [{ id := 5, userID := 1, name := [], size := 100, ftype := [],
       localMod := 0, deleted := false, finished := false }]
    "b" 5
    { id := 5, userID := 1, name := [], size := 100, ftype := [],
      localMod := 0, deleted := false, finished := false }
    { htype := [109], size := 0 } 7
    (by decide) (by decide) rfl rfl rfl (by decide) rfl
  exact ⟨h.2.2.2.1, h.2.2.1⟩

theorem uploadStart2Loop_presigned_fresh (u : User) (env : StartEnv)
    (ids : Nat → Nat) :
    ∀ (input : List (GoStr × GoStr × Int × Int)) (i : Nat) (total : Int)
      (created : List FileRec) (pres : List (ObjPath × GoStr))
      (out : List (Nat × GoStr × GoStr)),
      (∀ p url, (p, url) ∈ pres → env.exObj p = false) →
      ∀ p url,
        (p, url) ∈ (uploadStart2Loop u env ids input i total created pres out).presigned →
        env.exObj p = false := by
  intro input
  induction input with
  | nil =>
    intro i total created pres out hpres p url hmem
    simp only [uploadStart2Loop] at hmem
    split at hmem <;> exact hpres p url hmem
  | cons item rest ih =>
    intro i total created pres out hpres p url hmem
    obtain ⟨name, ftype, size, localMod⟩ := item
    simp only [uploadStart2Loop] at hmem
    split at hmem
    · exact hpres p url hmem
    · split at hmem
      · exact hpres p url hmem
      · split at hmem
        · exact hpres p url hmem
        · rename_i hex
          split at hmem
          · exact hpres p url hmem
          · rename_i url2 hok
            refine ih _ _ _ _ _ ?_ p url hmem
            intro q qu hq
            rcases List.mem_append.1 hq with hq | hq
            · exact hpres q qu hq
            · simp at hq
              obtain ⟨rfl, rfl⟩ := hq
              simpa using hex

/-- C7: a presigned PUT URL is only ever issued for a path the
`Exists` check reported absent (both in the single and in the batch
upload-start handler), and when the freshly derived path of an otherwise
accepted single upload does already hold an object, the handler aborts with
the `"already exists?!"` panic (a server-class error) and no presigned PUT
is issued. -/
theorem presign_only_for_fresh_path (u : User) (env : StartEnv)
    (ids : Nat → Nat) (input : List (GoStr × GoStr × Int × Int)) (fid : Nat)
    (name ftype : GoStr) (sizeF lastF : Option Int) :
    (∀ p url, (p, url) ∈ (uploadStart u env fid name ftype sizeF lastF).presigned →
      env.exObj p = false) ∧
    (∀ p url, (p, url) ∈ (uploadStart2 u env ids input).presigned →
      env.exObj p = false) ∧
    (∀ size : Int, sizeF = some size → size ≠ 0 → size ≤ maxFileSize →
      ¬(u.calcQuota ≠ 0 ∧ u.usage + size > u.calcQuota) →
      env.exObj (u.id, fid) = true →
      (uploadStart u env fid name ftype sizeF lastF).outcome = .panicked "already exists?!" ∧
      (uploadStart u env fid name ftype sizeF lastF).presigned = []) := by
  refine ⟨?_, ?_, ?_⟩
  · intro p url hmem
    cases sizeF with
    | none => simp [uploadStart] at hmem
    | some size =>
      simp only [uploadStart] at hmem
      split at hmem
      · simp at hmem
      · split at hmem
        · simp at hmem
        · split at hmem
          · simp at hmem
          · split at hmem
            · simp at hmem
            · rename_i hex
              split at hmem
              · simp at hmem
              · simp at hmem
                obtain ⟨rfl, rfl⟩ := hmem
                simpa using hex
  · exact uploadStart2Loop_presigned_fresh u env ids input 0 0 [] [] [] (by simp)
  · intro size hs h0 hmax hq hex
    subst hs
    have hnmax : ¬(size > maxFileSize) := not_lt.2 hmax
    constructor <;> simp [uploadStart, h0, hnmax, hq, newFile, FileRec.path, hex]

/-- C7 witness: with a storage oracle reporting every path as existing, an
otherwise valid single upload aborts with the collision panic and issues no
presigned URL. -/
theorem presign_only_for_fresh_path_witness :
    (uploadStart
      { id := 1, usage := 0, quota := 0, b2Token := [], b2Expire := 0 }
      { exObj := fun _ => true, presign := fun _ _ _ => .ok [117] }
      3 [] [] (some 5) none).outcome = .panicked "already exists?!" ∧
    (uploadStart
      { id := 1, usage := 0, quota := 0, b2Token := [], b2Expire := 0 }
      { exObj := fun _ => true, presign := fun _ _ _ => .ok [117] }
      3 [] [] (some 5) none).presigned = [] :=
  (presign_only_for_fresh_path
    { id := 1, usage := 0, quota := 0, b2Token := [], b2Expire := 0 }
    { exObj := fun _ => true, presign := fun _ _ _ => .ok [117] }
    (fun i => i) [] 3 [] [] (some 5) none).2.2
    5 rfl (by decide) (by decide) (by decide) rfl

/-- C8: the token refresher returns success without contacting the backend
and leaves the token and expiry unchanged when the stored token is non-empty
and `now - fudge` is before the stored expiry; otherwise it contacts the
backend, propagates a backend error verbatim, and on success persists the
new token and expiry on the user record and returns success. -/
theorem refreshB2Token_policy (u : User) (now fudge : Int)
    (backend : Except String (GoStr × Int)) :
    (u.b2Token ≠ [] → now - fudge < u.b2Expire →
      (refreshB2Token u now fudge backend).result = .ok () ∧
      (refreshB2Token u now fudge backend).user = u ∧
      (refreshB2Token u now fudge backend).backendCalled = false) ∧
    (¬(u.b2Token ≠ [] ∧ now - fudge < u.b2Expire) →
      (refreshB2Token u now fudge backend).backendCalled = true ∧
      (∀ e, backend = .error e →
        (refreshB2Token u now fudge backend).result = .error e ∧
        (refreshB2Token u now fudge backend).user = u) ∧
      (∀ t ex, backend = .ok (t, ex) →
        (refreshB2Token u now fudge backend).result = .ok () ∧
        (refreshB2Token u now fudge backend).user.b2Token = t ∧
        (refreshB2Token u now fudge backend).user.b2Expire = ex)) := by
  constructor
  · intro h1 h2
    simp [refreshB2Token, h1, h2]
  · intro h
    refine ⟨?_, ?_, ?_⟩
    · cases hb : backend with
      | error e => simp [refreshB2Token, h, hb]
      | ok p =>
        obtain ⟨t, ex⟩ := p
        simp [refreshB2Token, h, hb]
    · intro e he
      simp [refreshB2Token, h, he]
    · intro t ex he
      simp [refreshB2Token, h, he]

/-- C8 witness: a user with a non-empty token expiring at 100, queried at
now 50 with margin 10, is served without a backend call and unchanged. -/
theorem refreshB2Token_policy_witness :
    (refreshB2Token
      { id := 1, usage := 0, quota := 0, b2Token := [1], b2Expire := 100 }
      50 10 (.error "boom")).result = .ok () ∧
    (refreshB2Token
      { id := 1, usage := 0, quota := 0, b2Token := [1], b2Expire := 100 }
      50 10 (.error "boom")).user =
      { id := 1, usage := 0, quota := 0, b2Token := [1], b2Expire := 100 } ∧
    (refreshB2Token
      { id := 1, usage := 0, quota := 0, b2Token := [1], b2Expire := 100 }
      50 10 (.error "boom")).backendCalled = false :=
  (refreshB2Token_policy
    { id := 1, usage := 0, quota := 0, b2Token := [1], b2Expire := 100 }
    50 10 (.error "boom")).1 (by decide) (by decide)

/-- C9: the content-disposition header value is the fixed ASCII fallback
`"file"` plus the original filename's extension, followed by the UTF-8
extended parameter: the query-escaped filename with every `'+'` replaced by
`"%20"`; percent-decoding that extended parameter recovers the original
filename exactly for every byte string. -/
theorem encodeContentDisp_spec (f : GoStr) (h : ∀ b ∈ f, b < 256) :
    encodeContentDisp f =
      ascii "attachment; filename=" ++ [34] ++ ascii "file" ++ pathExt f ++ [34]
        ++ ascii "; filename*=UTF-8" ++ [39, 39] ++ replacePlus (queryEscape f) ∧
    percentDecode (replacePlus (queryEscape f)) = f :=
  ⟨rfl, percentDecode_roundtrip f h⟩

/-- C9 witness: the bytes of `"hi é.mp3"` (a space and a non-ASCII
character) round-trip through the extended parameter encoding. -/
theorem encodeContentDisp_spec_witness :
    (∀ b ∈ ([104, 105, 32, 195, 169, 46, 109, 112, 51] : GoStr), b < 256) ∧
    percentDecode (replacePlus (queryEscape
      [104, 105, 32, 195, 169, 46, 109, 112, 51])) =
      [104, 105, 32, 195, 169, 46, 109, 112, 51] :=
  ⟨by decide, (encodeContentDisp_spec
    [104, 105, 32, 195, 169, 46, 109, 112, 51] (by decide)).2⟩
